import Mathlib

/-!
Verification of the sesx2pl converter (src/index.js) against its
natural-language specification.

The program is a single-pass text transformer: it scans the lines of an
Adobe Audition `.sesx` project file, collects tracks / file references /
the sample rate, builds a playlist from the selected tracks, sorts it by
start time, and renders it either as a CUE sheet or as an M3U playlist.

Shallow-embedding conventions used throughout this file:

* JavaScript numbers are modelled as `Option ℚ`, with `none` playing the
  role of `NaN` (the only non-finite value reachable in this program:
  all arithmetic on extracted fields is `+ - / %` on finite inputs, and
  division only ever happens with the non-zero sample rate, guarded at
  the call site).  `x | 0` (`ToInt32`) is modelled exactly, including the
  2^32 wrap-around, by `toInt32`.
* JavaScript strings are Lean `String`s.  The regular expressions of the
  source are all of the shape `pre(.*?)post` with one lazy capture group
  between two literal delimiters, and none carries the `g` flag, so
  `getRX` is first-occurrence extraction: find the first occurrence of
  the opening delimiter, then capture up to the first occurrence of the
  closing delimiter after it (no match if either is missing).
* A thrown `TypeError` (reading a property of `undefined`, or passing
  `null` to `path.win32.basename`) is modelled by `Except.error`.
* `Array.prototype.join` renders `null`/`undefined` elements as the
  empty string; option values are defaulted accordingly where joined.
-/

deriving instance DecidableEq for Except

namespace Sesx

/-!
String primitives.  The Lean core string functions are position-based
and not kernel-reducible, so the handful of JavaScript string operations
the program uses are re-implemented here by structural recursion over
the character list, with the JS semantics spelled out directly.
-/

/-- JS `String.prototype.trim` (ASCII whitespace suffices for sesx
lines). -/
def trimS (s : String) : String :=
  String.mk (((s.data.dropWhile Char.isWhitespace).reverse.dropWhile
    Char.isWhitespace).reverse)

/-- JS `String.prototype.startsWith` with a literal pattern. -/
def startsS (s pat : String) : Bool :=
  pat.data.isPrefixOf s.data

/-- JS `String.prototype.toLowerCase` (ASCII letters). -/
def lowerS (s : String) : String :=
  String.mk (s.data.map Char.toLower)

/-- JS `String.prototype.toUpperCase` (ASCII letters). -/
def upperS (s : String) : String :=
  String.mk (s.data.map Char.toUpper)

/-- Drop the first `n` characters. -/
def dropS (s : String) (n : ℕ) : String :=
  String.mk (s.data.drop n)

/-- Is the string empty? -/
def isEmptyS (s : String) : Bool :=
  s.data.isEmpty

/-- Split on a non-empty literal separator, leftmost non-overlapping
occurrences (JS `String.prototype.split` with a string argument).  The
fuel argument (instantiated with more than the input length) only makes
the recursion structural; it is never exhausted. -/
def splitFuel (sep : List Char) : ℕ → List Char → List Char → List (List Char)
  | 0, l, acc => [acc.reverse ++ l]
  | _ + 1, [], acc => [acc.reverse]
  | fuel + 1, c :: rest, acc =>
    if sep.isPrefixOf (c :: rest) then
      acc.reverse :: splitFuel sep fuel ((c :: rest).drop sep.length) []
    else
      splitFuel sep fuel rest (acc ++ [c])

/-- JS `s.split(sep)` for a non-empty literal `sep`. -/
def splitOnS (s sep : String) : List String :=
  (splitFuel sep.data (s.data.length + 1) s.data []).map String.mk

/-- Split at every character satisfying `p` (used for path
separators). -/
def splitCharGo (p : Char → Bool) : List Char → List Char → List (List Char)
  | [], acc => [acc.reverse]
  | c :: rest, acc =>
    if p c then acc.reverse :: splitCharGo p rest []
    else splitCharGo p rest (acc ++ [c])

/-- Split a string at every character satisfying `p`. -/
def splitCharS (s : String) (p : Char → Bool) : List String :=
  (splitCharGo p s.data []).map String.mk

/-- Global literal replacement, leftmost non-overlapping occurrences
(JS `String.prototype.replace` with a `g`-flagged literal pattern). -/
def replaceFuel (pat rep : List Char) : ℕ → List Char → List Char
  | 0, l => l
  | _ + 1, [] => []
  | fuel + 1, c :: rest =>
    if pat.isPrefixOf (c :: rest) then
      rep ++ replaceFuel pat rep fuel ((c :: rest).drop pat.length)
    else
      c :: replaceFuel pat rep fuel rest

/-- JS `s.replace(/pat/g, rep)` for a non-empty literal `pat`. -/
def replaceS (s pat rep : String) : String :=
  String.mk (replaceFuel pat.data rep.data (s.data.length + 1) s.data)

/-- Drop trailing characters satisfying `p`. -/
def dropRightWhileS (s : String) (p : Char → Bool) : String :=
  String.mk ((s.data.reverse.dropWhile p).reverse)

/-- JavaScript number: `none` models `NaN`. -/
abbrev JSNum := Option ℚ

/-- Truncation toward zero of a rational, as JS `ToIntegerOrInfinity` does
before the 2^32 wrap of `ToInt32`. -/
def ratTrunc (q : ℚ) : ℤ :=
  if 0 ≤ q then ⌊q⌋ else ⌈q⌉

/-- JS `x | 0` (`ToInt32`): `NaN` becomes `0`, otherwise truncate toward
zero and wrap into the signed 32-bit range. -/
def toInt32 (n : JSNum) : ℤ :=
  match n with
  | none => 0
  | some q =>
    if ratTrunc q % 4294967296 < 2147483648 then ratTrunc q % 4294967296
    else ratTrunc q % 4294967296 - 4294967296

/-- JS addition on numbers (`NaN` absorbs). -/
def jsAdd (a b : JSNum) : JSNum :=
  match a, b with
  | some x, some y => some (x + y)
  | _, _ => none

/-- JS subtraction on numbers (`NaN` absorbs). -/
def jsSub (a b : JSNum) : JSNum :=
  match a, b with
  | some x, some y => some (x - y)
  | _, _ => none

/-- JS division.  Division by zero yields a non-finite value, collapsed
here into the `NaN` representative; the program only divides by the
sample rate, guarded non-zero (line 100), and by the constant 60. -/
def jsDiv (a b : JSNum) : JSNum :=
  match a, b with
  | some x, some y => if y = 0 then none else some (x / y)
  | _, _ => none

/-- JS remainder `x % y`: `x - y * trunc (x / y)`, sign of the dividend. -/
def jsMod (a b : JSNum) : JSNum :=
  match a, b with
  | some x, some y => if y = 0 then none else some (x - y * (ratTrunc (x / y) : ℚ))
  | _, _ => none

/-- JS falsiness of a number: `NaN` and `0` are falsy. -/
def jsFalsy (n : JSNum) : Bool :=
  match n with
  | none => true
  | some q => q = 0

/-- Digits of a decimal numeral, or `none` when the string is empty or
contains a non-digit character. -/
def decDigits (s : String) : Option ℕ :=
  if isEmptyS s then none
  else if s.data.all (fun c => c.isDigit) then
    some (s.data.foldl (fun n c => n * 10 + (c.toNat - 48)) 0)
  else none

/-- JS `Number(string)` coercion (used by the unary `+` of the source),
modelled for the decimal numerals the sesx format carries: surrounding
whitespace is trimmed, the empty string is `0`, an optional sign is
followed by digits with an optional fractional part, and anything else
(including exponent or hex forms, which never occur in sesx files) is
`NaN`. -/
def jsToNumber (s : String) : JSNum :=
  let t := trimS s
  if isEmptyS t then some 0 else
  let neg := startsS t "-"
  let body := if startsS t "-" || startsS t "+" then dropS t 1 else t
  let val : Option ℚ :=
    match splitOnS body "." with
    | [a] => (decDigits a).map (fun n => (n : ℚ))
    | [a, b] =>
      if isEmptyS a && isEmptyS b then none
      else
        let ia : Option ℕ := if isEmptyS a then some 0 else decDigits a
        let fb : Option ℚ :=
          if isEmptyS b then some 0
          else (decDigits b).map (fun n => (n : ℚ) / (10 : ℚ) ^ b.data.length)
        match ia, fb with
        | some n, some f => some ((n : ℚ) + f)
        | _, _ => none
    | _ => none
  val.map (fun v => if neg then -v else v)

/-- `getRX` for the source's regexes, all of shape `pre(.*?)post` without
the `g` flag (so the `lastIndex` bookkeeping of `getRX` is inert): the
capture of the first match, i.e. the text between the first occurrence
of `pre` and the first occurrence of `post` after it. -/
def extractBetween (pre post s : String) : Option String :=
  match splitOnS s pre with
  | _ :: restParts =>
    if restParts.isEmpty then none
    else
      match splitOnS (String.intercalate pre restParts) post with
      | cap :: _ :: _ => some cap
      | _ => none
  | [] => none

/-- Attribute capture `key="(.*?)"`, matching anywhere in the line. -/
def extractAttr (key s : String) : Option String :=
  extractBetween (key ++ "=\x22") "\x22" s

/-- JS unary `+` applied to a `getRX` result: an absent capture is
`undefined`, and `+undefined` is `NaN`. -/
def numOfCapture (c : Option String) : JSNum :=
  match c with
  | none => none
  | some s => jsToNumber s

/-- JS `padStart(n, c)`. -/
def padStart (s : String) (n : ℕ) (c : Char) : String :=
  String.mk (List.replicate (n - s.length) c) ++ s

/-- One audio track of the project: display name (assigned from a capture
that may be absent, hence optional), header line index, clip line
indices in scan order. -/
structure Track where
  name : Option String
  line : ℕ
  clips : List ℕ
deriving DecidableEq

/-- One `<file .../>` reference: `id` is `null` (`none`) when the capture
is absent or empty (`getRX(rxId, line) || null`). -/
structure FileRef where
  path : String
  id : Option String
deriving DecidableEq

/-- One playlist entry: times in seconds (JS numbers), resolved path or
`null`, display name (defaulted to the empty string). -/
structure Entry where
  startPoint : JSNum
  duration : JSNum
  path : Option String
  name : String
deriving DecidableEq

/-- A thrown JavaScript `TypeError`. -/
inductive TErr where
  | typeError
deriving DecidableEq

/-- Scanner state: `tracks` (the current track `_track` is always the
most recently pushed element, and is `undefined` exactly when `tracks`
is empty), `files`, the detected `sampleRate` (initially `0`), and the
`_name` flag. -/
structure ScanState where
  tracks : List Track
  files : List FileRef
  sampleRate : JSNum
  nameSeen : Bool
deriving DecidableEq

/-- Replace the last element of a list in place (mutation of `_track`,
which aliases the last element of `tracks`). -/
def modifyLast (f : Track → Track) : List Track → List Track
  | [] => []
  | [t] => [f t]
  | t :: ts => t :: modifyLast f ts

/-- One step of the scanner (source lines 81-98), an else-if chain over
the trimmed line.  Assigning the track name dereferences `_track`, which
throws a `TypeError` when no `<audioTrack ` header has been seen yet. -/
def scanLine (st : ScanState) (i : ℕ) (raw : String) : Except TErr ScanState :=
  let line := trimS raw
  if startsS line "<audioTrack " then
    .ok { st with nameSeen := false,
                  tracks := st.tracks ++ [{ name := some "", line := i, clips := [] }] }
  else if !st.nameSeen && startsS line "<name>" then
    match st.tracks with
    | [] => .error .typeError
    | _ :: _ =>
      .ok { st with nameSeen := true,
                    tracks := modifyLast
                      (fun t => { t with name := extractBetween ">" "<" line }) st.tracks }
  else if !st.tracks.isEmpty && startsS line "<audioClip " then
    .ok { st with tracks := modifyLast (fun t => { t with clips := t.clips ++ [i] }) st.tracks }
  else if startsS line "<file " then
    let path := extractAttr "absolutePath" line
    let id :=
      match extractAttr "id" line with
      | some s => if isEmptyS s then none else some s
      | none => none
    match path with
    | some p =>
      if isEmptyS p then .ok st
      else .ok { st with files := st.files ++ [{ path := p, id := id }] }
    | none => .ok st
  else if startsS line "<session " then
    .ok { st with sampleRate := numOfCapture (extractAttr "sampleRate" line) }
  else
    .ok st

/-- Scan the remaining lines, threading the line index. -/
def scanFrom (st : ScanState) (i : ℕ) : List String → Except TErr ScanState
  | [] => .ok st
  | l :: ls =>
    match scanLine st i l with
    | .error e => .error e
    | .ok st2 => scanFrom st2 (i + 1) ls

/-- The record scanner: one pass over all source lines. -/
def scan (sesx : List String) : Except TErr ScanState :=
  scanFrom { tracks := [], files := [], sampleRate := some 0, nameSeen := false } 0 sesx

/-- JS array indexing `tracks[t]` with a possibly negative or
out-of-range integer index: `undefined` (`none`) unless `0 ≤ t <
length`. -/
def trackAt (tracks : List Track) (t : ℤ) : Option Track :=
  if t < 0 then none else tracks[t.toNat]?

/-- `sesx[i]` re-read during building.  The recorded clip indices are
always in range; an out-of-range access would yield `undefined`, which
`RegExp.exec` coerces to the string `"undefined"` (matching none of the
attribute patterns). -/
def lineAt (sesx : List String) (i : ℕ) : String :=
  sesx.getD i "undefined"

/-- `getFilePathById` (source lines 188-191): first file whose `id` is
strictly equal (`===`) to the clip's `fileID`; an absent `fileID`
(`undefined`) never equals a string nor `null`, so the result is
`null`. -/
def getFilePathById (files : List FileRef) (id : Option String) : Option String :=
  match id with
  | none => none
  | some s =>
    match files.find? (fun f => f.id = some s) with
    | some f => some f.path
    | none => none

/-- Build one playlist entry from a clip line (source lines 119-126). -/
def clipEntry (sesx : List String) (files : List FileRef) (q : ℚ) (i : ℕ) : Entry :=
  let line := lineAt sesx i
  let fileID := extractAttr "fileID" line
  let startPoint := jsDiv (numOfCapture (extractAttr "startPoint" line)) (some q)
  let endPoint := jsDiv (numOfCapture (extractAttr "endPoint" line)) (some q)
  { startPoint := startPoint
    duration := jsSub endPoint startPoint
    path := getFilePathById files fileID
    name := (extractAttr "name" line).getD "" }

/-- One selected track contributes one entry per recorded clip line. -/
def buildTrack (sesx : List String) (files : List FileRef) (q : ℚ) (tr : Track) : List Entry :=
  tr.clips.map (clipEntry sesx files q)

/-- One iteration of the builder loop (source lines 115-128): a missing
track logs a warning (collected in the second component) and contributes
nothing, an existing track appends all its clip entries. -/
def buildStep (sesx : List String) (files : List FileRef) (q : ℚ) (tracks : List Track)
    (acc : List Entry × List ℤ) (t : ℤ) : List Entry × List ℤ :=
  match trackAt tracks t with
  | none => (acc.1, acc.2 ++ [t])
  | some tr => (acc.1 ++ buildTrack sesx files q tr, acc.2)

/-- The playlist builder: walk the selection list in order. -/
def build (sesx : List String) (tracks : List Track) (files : List FileRef) (q : ℚ)
    (sel : List ℤ) : List Entry × List ℤ :=
  sel.foldl (buildStep sesx files q tracks) ([], [])

/-- The sort comparator `(a, b) => a.startPoint - b.startPoint`, read as
"a may stay before b": true when the difference is `≤ 0` or `NaN` (the
sort algorithm treats a `NaN` comparator result as equality). -/
def jsLe (a b : Entry) : Bool :=
  match a.startPoint, b.startPoint with
  | some x, some y => x ≤ y
  | _, _ => true

/-- Stable insertion of an earlier element before the first element it
may precede. -/
def oins (x : Entry) : List Entry → List Entry
  | [] => [x]
  | b :: l => if jsLe x b then x :: b :: l else b :: oins x l

/-- `playlist.sort(...)` (source line 130): `Array.prototype.sort` is
required to be stable (ES2019), so for a consistent comparator it equals
this stable insertion sort. -/
def sortJS : List Entry → List Entry
  | [] => []
  | a :: l => oins a (sortJS l)

/-- Truthiness of an optional string: `undefined` and `""` are falsy. -/
def strTruthy (o : Option String) : Bool :=
  match o with
  | none => false
  | some s => !isEmptyS s

/-- JS `string || default` on an optional string. -/
def strOrDefault (o : Option String) (d : String) : String :=
  match o with
  | none => d
  | some s => if isEmptyS s then d else s

/-- Node `path.basename` on the POSIX host platform: trailing slashes are
dropped, then the part after the last slash is taken. -/
def posixBasename (p : String) : String :=
  (splitOnS (dropRightWhileS p (fun c => c = '/')) "/").getLastD ""

/-- Node `path.win32.basename`: like `posixBasename` but both `/` and
`\` separate. -/
def win32Basename (p : String) : String :=
  (splitCharS (dropRightWhileS p (fun c => c = '/' || c = '\\'))
    (fun c => c = '/' || c = '\\')).getLastD ""

/-- Node `path.extname` as used on an already-extracted basename: the
last dot suffix, empty for a dotless or leading-dot-only name. -/
def extnameOf (s : String) : String :=
  match splitOnS s "." with
  | [] => ""
  | [_] => ""
  | first :: rest =>
    if isEmptyS first && rest.length = 1 then ""
    else "." ++ rest.getLastD ""

/-- Node `path.join(subs, base)` on the POSIX host, as far as this
program exercises it: the two segments glued with a slash. -/
def jsJoin (a b : String) : String :=
  a ++ "/" ++ b

/-- `s.replace(/&amp;/g, '&')`. -/
def unAmp (s : String) : String :=
  replaceS s "&amp;" "&"

/-- `toCueTS` (source lines 193-197): minutes and seconds by `|0`
truncation, each zero-padded to two characters, frames hard-coded. -/
def toCueTS (t : JSNum) : String :=
  padStart (toString (toInt32 (jsDiv t (some 60)))) 2 '0' ++ ":" ++
  padStart (toString (toInt32 (jsMod t (some 60)))) 2 '0' ++ ":00"

/-- One CUE TRACK block (source lines 159-168).  `parts[1]` is
`undefined` when the name contains no `" - "` separator, and calling
`.replace` on it throws a `TypeError`. -/
def cueTrackBlock (i : ℕ) (e : Entry) (delta : ℤ) : Except TErr (List String) :=
  let parts := (splitOnS e.name " - ").map (fun s => if isEmptyS s then "" else trimS s)
  match parts[1]? with
  | none => .error .typeError
  | some title =>
    .ok [ "  TRACK " ++ padStart (toString (i + 1)) 2 '0' ++ " AUDIO",
          "    TITLE \x22" ++ unAmp title ++ "\x22",
          "    PERFORMER \x22" ++ unAmp (parts.headD "") ++ "\x22",
          "    INDEX 01 " ++ toCueTS (jsAdd e.startPoint (some (delta : ℚ))) ]

/-- The body of the CUE renderer's `forEach` over the playlist, with the
running 0-based index: the four lines of each TRACK block in order.  A
thrown `TypeError` aborts the whole rendering, so accumulating the lines
by recursion is observably the same as the source's pushes. -/
def cueBody (delta : ℤ) : ℕ → List Entry → Except TErr (List String)
  | _, [] => .ok []
  | i, e :: es =>
    match cueTrackBlock i e delta with
    | .error err => .error err
    | .ok ls =>
      match cueBody delta (i + 1) es with
      | .error err => .error err
      | .ok rest => .ok (ls ++ rest)

/-- The CUE renderer `makeCue` (source lines 153-173). -/
def makeCue (pl : List Entry) (source : Option String) (delta : ℤ) : Except TErr String :=
  let src := posixBasename (strOrDefault source "INSERT-FILENAME-TO-SOURCE.mp3")
  let type := upperS (dropS (extnameOf src) 1)
  match cueBody delta 0 pl with
  | .error err => .error err
  | .ok body =>
    .ok (String.intercalate "\r\n"
      (["PERFORMER \x22sesx2pl\x22", "TITLE \x22Playlist\x22",
        "FILE \x22" ++ src ++ "\x22 " ++ type] ++ body ++ [""]))

/-- One M3U entry (source lines 179-182).  With a truthy substitution
directory, a `null` entry path reaches `path.win32.basename(null)`,
which throws a `TypeError`; without one, the raw (possibly `null`) path
is pushed and `Array.prototype.join` renders `null` as the empty string.
The `#EXTINF` template literal of the source reads
`` `#EXTINF:${ e.duration|0 },e.name` ``: the text `e.name` sits outside
the interpolation braces, so the literal characters `e.name` are
emitted, not the entry's name. -/
def m3uLines (subs : Option String) (e : Entry) : Except TErr (List String) :=
  let extinf := "#EXTINF:" ++ toString (toInt32 e.duration) ++ ",e.name"
  if strTruthy subs then
    match e.path with
    | none => .error .typeError
    | some p => .ok [extinf, jsJoin (subs.getD "") (win32Basename p)]
  else
    .ok [extinf, e.path.getD ""]

/-- The body of the M3U renderer's `forEach` over the playlist; as for
`cueBody`, a thrown `TypeError` aborts the whole rendering. -/
def m3uBody (subs : Option String) : List Entry → Except TErr (List String)
  | [] => .ok []
  | e :: es =>
    match m3uLines subs e with
    | .error err => .error err
    | .ok ls =>
      match m3uBody subs es with
      | .error err => .error err
      | .ok rest => .ok (ls ++ rest)

/-- The M3U renderer `makeM3U` (source lines 175-186). -/
def makeM3U (pl : List Entry) (subs : Option String) : Except TErr String :=
  match m3uBody subs pl with
  | .error err => .error err
  | .ok body => .ok (String.intercalate "\r\n" ("#EXTM3U" :: body ++ [""]))

/-- Output format, selected by the destination file's extension; the CLI
layer (out of the spec's scope) guarantees it is `.cue` or `.m3u`,
case-insensitively. -/
inductive OutFormat where
  | cue
  | m3u
deriving DecidableEq

/-- The caller-supplied options that reach the conversion core. -/
structure Options where
  track : Option String
  source : Option String
  delta : Option String
  info : Bool
  format : OutFormat
deriving DecidableEq

/-- `const delta = options.delta | 0` (source line 75). -/
def parseDelta (d : Option String) : ℤ :=
  toInt32 (match d with | none => none | some s => jsToNumber s)

/-- `(options.track || '0').split(',').map(e => e|0)` (source line 115). -/
def parseTrackList (track : Option String) : List ℤ :=
  (splitOnS (strOrDefault track "0") ",").map (fun e => toInt32 (jsToNumber e))

/-- The info-mode report (source lines 105-112), `undefined` names
rendered as the empty string by `Array.prototype.join`. -/
def infoText (tracks : List Track) : String :=
  "Audition sesx information:\n\n" ++
  "Number of tracks: " ++ toString tracks.length ++ " - (" ++
    String.intercalate ", " (tracks.map (fun t => t.name.getD "")) ++ ")" ++
  String.join (tracks.enum.map
    (fun it => "\n  # of entries in track " ++ toString it.1 ++ ": " ++
      toString it.2.clips.length)) ++ "\n"

/-- How a run can terminate early. -/
inductive RunError where
  | notValidSesx
  | noSampleRate
  | typeError
deriving DecidableEq

/-- What a successful run produces: the info report, or the text written
to the destination file. -/
inductive Output where
  | info (s : String)
  | file (data : String)
deriving DecidableEq

/-- The signature check (source lines 56-58): reject with the "not a
valid" message only when the first line (trimmed, lowercased) does NOT
start with `<?xml` AND the second line (trimmed) does NOT start with
`<!DOCTYPE sesx>`.  With fewer than two lines, `sesx[1].trim()` throws
(and `sesx[0]` always exists: JS `split` never returns an empty
array). -/
def sigCheck (sesx : List String) : Except RunError Unit :=
  match sesx with
  | [] => .error .typeError
  | [l0] =>
    if startsS (lowerS (trimS l0)) "<?xml" then .ok () else .error .typeError
  | l0 :: l1 :: _ =>
    if !startsS (lowerS (trimS l0)) "<?xml" && !startsS (trimS l1) "<!DOCTYPE sesx>" then
      .error .notValidSesx
    else .ok ()

/-- Renderer dispatch on the destination extension (source lines
137-138). -/
def renderPhase (fmt : OutFormat) (pl : List Entry) (source : Option String) (delta : ℤ) :
    Except TErr String :=
  match fmt with
  | .cue => makeCue pl source delta
  | .m3u => makeM3U pl source

/-- Everything after a successful scan: the sample-rate guard (source
line 100), the info branch, then build → sort → render. -/
def afterScan (opts : Options) (sesx : List String) (st : ScanState) :
    Except RunError Output :=
  if jsFalsy st.sampleRate then .error .noSampleRate
  else if opts.info then .ok (.info (infoText st.tracks))
  else
    match renderPhase opts.format
        (sortJS (build sesx st.tracks st.files (st.sampleRate.getD 0)
          (parseTrackList opts.track)).1)
        opts.source (parseDelta opts.delta) with
    | .error _ => .error .typeError
    | .ok data => .ok (.file data)

/-- The whole conversion run on the split lines of the source file:
signature check, scan, then `afterScan`. -/
def run (opts : Options) (sesx : List String) : Except RunError Output :=
  match sigCheck sesx with
  | .error e => .error e
  | .ok _ =>
    match scan sesx with
    | .error _ => .error .typeError
    | .ok st => afterScan opts sesx st

/-! ## Helper lemmas -/

/-- A default option record used by concrete instantiations. -/
def opts0 : Options :=
  { track := none, source := none, delta := none, info := false, format := .m3u }

/-- The phase after a successful scan never reports the "not a valid"
signature failure: its only outcomes are the sample-rate failure, a
successful output, or a renderer crash. -/
lemma afterScan_ne_notValidSesx (opts : Options) (sesx : List String) (st : ScanState) :
    afterScan opts sesx st ≠ Except.error RunError.notValidSesx := by
  unfold afterScan
  split
  · simp
  · split
    · simp
    · split <;> simp

/-- Entry counting and warning collection for the builder loop, with a
general accumulator. -/
lemma build_foldl (sesx : List String) (tracks : List Track) (files : List FileRef) (q : ℚ)
    (sel : List ℤ) (acc : List Entry × List ℤ) :
    ((sel.foldl (buildStep sesx files q tracks) acc).1.length =
      acc.1.length +
        (sel.map (fun t =>
          match trackAt tracks t with
          | some tr => tr.clips.length
          | none => 0)).sum) ∧
    ((sel.foldl (buildStep sesx files q tracks) acc).2 =
      acc.2 ++ sel.filter (fun t => (trackAt tracks t).isNone)) := by
  induction sel generalizing acc with
  | nil => simp
  | cons t ts ih =>
    cases h : trackAt tracks t with
    | none =>
      have := ih (buildStep sesx files q tracks acc t)
      simp only [buildStep, h] at this
      simp only [List.foldl_cons, List.map_cons, List.sum_cons, List.filter_cons, h,
        Option.isNone_none, buildStep]
      constructor
      · rw [this.1]; omega
      · rw [this.2]; simp
    | some tr =>
      have := ih (buildStep sesx files q tracks acc t)
      simp only [buildStep, h] at this
      simp only [List.foldl_cons, List.map_cons, List.sum_cons, List.filter_cons, h,
        Option.isNone_some, buildStep]
      constructor
      · rw [this.1]
        simp only [List.length_append, buildTrack, List.length_map]
        omega
      · rw [this.2]; simp

/-! ## Claims -/

/-- Claim C1 (code bug shown at a failing input): the spec says the M3U
renderer emits `#EXTINF:<duration>,<name>` with the entry's name, but in
the source template literal (line 181) the text `e.name` sits outside
the interpolation, so the literal characters `e.name` are emitted
instead of the entry's name.  For an entry with duration 5 seconds and
name `Song`, the output line is `#EXTINF:5,e.name`, not
`#EXTINF:5,Song`. -/
theorem m3u_extinf_emits_literal_e_name :
    makeM3U [{ startPoint := some 0, duration := some 5,
               path := some "C:\\a.wav", name := "Song" }] none =
      Except.ok "#EXTM3U\r\n#EXTINF:5,e.name\r\nC:\\a.wav\r\n" := by
  decide

/-- Claim C2 (code bug shown at a failing input): the spec says a name
with no `" - "` separator still renders a TRACK block with an empty
TITLE, but `split(' - ')` on such a name yields a one-element array, so
`parts[1]` is `undefined` and `parts[1].replace(...)` (source line 165)
throws a `TypeError`; the CUE renderer crashes instead of rendering. -/
theorem cue_name_without_separator_throws :
    makeCue [{ startPoint := some 0, duration := some 1,
               path := some "p", name := "X" }] none 0 =
      Except.error TErr.typeError := by
  decide

/-- Claim C7: the number of playlist entries built equals the sum of
clip counts over the existing selected tracks; each selected index with
no corresponding track contributes zero entries and yields exactly one
per-index warning (the builder never fails). -/
theorem build_entry_count (sesx : List String) (tracks : List Track) (files : List FileRef)
    (q : ℚ) (sel : List ℤ) :
    ((build sesx tracks files q sel).1.length =
      (sel.map (fun t =>
        match trackAt tracks t with
        | some tr => tr.clips.length
        | none => 0)).sum) ∧
    ((build sesx tracks files q sel).2 =
      sel.filter (fun t => (trackAt tracks t).isNone)) := by
  have h := build_foldl sesx tracks files q sel ([], [])
  simpa [build] using h

/-- Claim C9: an input that passes the signature check but contains a
`<name>`-shaped line before any `<audioTrack ` header makes the scanner
assign the extracted name to the undefined `_track`, so the run aborts
with a runtime `TypeError` instead of ignoring the line or reporting a
diagnostic. -/
theorem name_before_track_type_error :
    scan ["<?xml version=\x221.0\x22?>", "<!DOCTYPE sesx>", "<name>Boom</name>"] =
        Except.error TErr.typeError ∧
    run opts0 ["<?xml version=\x221.0\x22?>", "<!DOCTYPE sesx>", "<name>Boom</name>"] =
        Except.error RunError.typeError := by
  constructor
  · decide
  · decide

/-- Claim C10: whenever a non-empty source substitution directory is
supplied and some playlist entry's path is `null` (its clip's `fileID`
matched no file reference), the M3U renderer reaches
`path.win32.basename(null)` (source line 180), which throws a
`TypeError`: the whole rendering aborts instead of producing a
playlist. -/
theorem m3u_null_path_with_subs_type_error (pl : List Entry) (s : String)
    (hs : isEmptyS s = false) (h : ∃ e ∈ pl, e.path = none) :
    makeM3U pl (some s) = Except.error TErr.typeError := by
  have hT : strTruthy (some s) = true := by simp [strTruthy, hs]
  suffices hgen : m3uBody (some s) pl = Except.error TErr.typeError by
    simp only [makeM3U, hgen]
  induction pl with
  | nil => simp at h
  | cons e es ih =>
    rcases h with ⟨x, hx, hpath⟩
    rcases List.mem_cons.mp hx with rfl | hx'
    · simp only [m3uBody, m3uLines, hT, if_true, hpath]
    · cases hp : e.path with
      | none => simp only [m3uBody, m3uLines, hT, if_true, hp]
      | some p =>
        have := ih ⟨x, hx', hpath⟩
        simp only [m3uBody, m3uLines, hT, if_true, hp, this]

/-- Witness for claim C10 at a concrete input: one entry whose path is
`null`, substitution directory `D:/music`. -/
theorem m3u_null_path_with_subs_type_error_witness :
    makeM3U [{ startPoint := some 0, duration := some 1, path := none, name := "A" }]
        (some "D:/music") = Except.error TErr.typeError :=
  m3u_null_path_with_subs_type_error _ _ (by decide) (by decide)

/-- Claim C3 (counterexample): the claim says the program stops with the
"not a valid" message whenever EITHER marker line does not match, but
the source's check (line 56) combines the two failed-marker tests with
`&&`, so it rejects only when BOTH fail.  Here the second line fails the
`<!DOCTYPE sesx>` marker, yet the signature check passes and the run
proceeds to the sample-rate stage instead of stopping at the
signature. -/
theorem sig_check_passes_with_bad_doctype :
    sigCheck ["<?xml version=\x221.0\x22?>", "<bogus>"] = Except.ok () ∧
    startsS (trimS "<bogus>") "<!DOCTYPE sesx>" = false ∧
    run opts0 ["<?xml version=\x221.0\x22?>", "<bogus>"] =
      Except.error RunError.noSampleRate := by
  refine ⟨by decide, by decide, by decide⟩

/-- Claim C3 (amended): the run stops with the "not a valid" message iff
BOTH marker lines fail — the first line (trimmed, lowercased) does not
start with `<?xml` AND the second line (trimmed) does not start with
`<!DOCTYPE sesx>`; if either line matches its marker, the signature
check passes and processing continues. -/
theorem run_not_valid_iff_both_markers_fail (opts : Options) (l0 l1 : String)
    (rest : List String) :
    run opts (l0 :: l1 :: rest) = Except.error RunError.notValidSesx ↔
      startsS (lowerS (trimS l0)) "<?xml" = false ∧
      startsS (trimS l1) "<!DOCTYPE sesx>" = false := by
  cases hb0 : startsS (lowerS (trimS l0)) "<?xml" <;>
    cases hb1 : startsS (trimS l1) "<!DOCTYPE sesx>" <;>
      simp only [run, sigCheck, hb0, hb1, Bool.not_false, Bool.not_true, Bool.false_and,
        Bool.and_false, Bool.true_and, Bool.and_self, if_true, if_false, Bool.true_eq_false,
        Bool.false_eq_true, and_true, true_and, and_false, false_and, and_self,
        reduceIte] <;>
      try
        (cases hscan : scan (l0 :: l1 :: rest) with
          | error e => simp
          | ok st => simp [afterScan_ne_notValidSesx])

/-- Witness for the amended claim C3 at a concrete input: both lines
fail their markers, so the run stops with the "not a valid" message. -/
theorem run_not_valid_iff_both_markers_fail_witness :
    run opts0 ["junk", "more junk"] = Except.error RunError.notValidSesx :=
  (run_not_valid_iff_both_markers_fail opts0 "junk" "more junk" []).mpr (by decide)

/-- Shift an entry's start point by `d` seconds (JS addition, so a `NaN`
start point stays `NaN`). -/
def shiftStart (d : ℤ) (e : Entry) : Entry :=
  { e with startPoint := jsAdd e.startPoint (some (d : ℚ)) }

/-- Adding the integer-cast zero is the identity on JS numbers. -/
lemma jsAdd_intCast_zero (a : JSNum) : jsAdd a (some ((0 : ℤ) : ℚ)) = a := by
  cases a <;> simp [jsAdd]

/-- A TRACK block rendered with delta `d` equals the block of the
startPoint-shifted entry rendered with delta `0`: the CUE renderer adds
the delta to the entry's `startPoint` (source line 167) and uses it
nowhere else. -/
lemma cueTrackBlock_shift (i : ℕ) (e : Entry) (d : ℤ) :
    cueTrackBlock i (shiftStart d e) 0 = cueTrackBlock i e d := by
  simp only [cueTrackBlock, shiftStart, jsAdd_intCast_zero]

/-- `cueTrackBlock_shift`, lifted over the playlist walk. -/
lemma cueBody_shift (d : ℤ) (i : ℕ) (pl : List Entry) :
    cueBody 0 i (pl.map (shiftStart d)) = cueBody d i pl := by
  induction pl generalizing i with
  | nil => rfl
  | cons e es ih =>
    simp only [List.map_cons, cueBody, cueTrackBlock_shift, ih]

/-- The CUE renderer applies the delta by shifting every entry's
`startPoint`: rendering with delta `d` is rendering the shifted playlist
with delta `0`. -/
lemma makeCue_shift (pl : List Entry) (source : Option String) (d : ℤ) :
    makeCue pl source d = makeCue (pl.map (shiftStart d)) source 0 := by
  unfold makeCue
  rw [cueBody_shift]

/-- A concrete entry (name with separator, so the CUE renderer
succeeds) at start point `0`. -/
def cueE0 : Entry :=
  { startPoint := some 0, duration := some 1, path := none, name := "A - B" }

/-- The M3U branch of the render phase ignores the delta. -/
lemma afterScan_m3u_delta (opts : Options) (d1 d2 : Option String) (sesx : List String)
    (st : ScanState) :
    afterScan { opts with format := OutFormat.m3u, delta := d1 } sesx st =
      afterScan { opts with format := OutFormat.m3u, delta := d2 } sesx st := by
  simp only [afterScan, renderPhase]

/-- Two delta options that parse alike render alike. -/
lemma afterScan_delta_parse_eq (opts : Options) (d1 d2 : Option String)
    (h : parseDelta d1 = parseDelta d2) (sesx : List String) (st : ScanState) :
    afterScan { opts with delta := d1 } sesx st =
      afterScan { opts with delta := d2 } sesx st := by
  simp only [afterScan]
  rw [h]

/-- Runs agree when their post-scan phases agree (the signature check
and the scanner never look at the options). -/
lemma run_congr_afterScan (o1 o2 : Options) (sesx : List String)
    (h : ∀ st, afterScan o1 sesx st = afterScan o2 sesx st) :
    run o1 sesx = run o2 sesx := by
  unfold run
  cases hs : sigCheck sesx with
  | error e => rfl
  | ok u =>
    cases hsc : scan sesx with
    | error e => rfl
    | ok st => exact h st

set_option maxRecDepth 4096 in
unseal Rat.add Rat.mul Rat.inv Rat.sub in
/-- Claim C5: the delta offset is applied only by the CUE renderer and
there always, added to each entry's `startPoint` at render time — the
M3U run is unchanged under ANY change of the delta option; rendering
with `delta = 0` is identical (for both formats) to rendering with no
delta at all (`options.delta` undefined, so `options.delta|0` is `0` in
both cases); the CUE renderer applies the delta as a per-entry
`startPoint` shift (rendering with delta `d` equals rendering the
playlist with every `startPoint` shifted by `d` at delta `0`); and the
CUE output genuinely depends on the delta (at delta `61` the concrete
entry's INDEX moves, so the renderer cannot be ignoring it). -/
theorem delta_applied_only_by_cue :
    (∀ (opts : Options) (sesx : List String) (d1 d2 : Option String),
      run { opts with format := OutFormat.m3u, delta := d1 } sesx =
        run { opts with format := OutFormat.m3u, delta := d2 } sesx) ∧
    (∀ (opts : Options) (sesx : List String),
      run { opts with delta := some "0" } sesx =
        run { opts with delta := none } sesx) ∧
    (∀ (pl : List Entry) (source : Option String) (d : ℤ),
      makeCue pl source d = makeCue (pl.map (shiftStart d)) source 0) ∧
    makeCue [cueE0] none 61 ≠ makeCue [cueE0] none 0 := by
  refine ⟨?_, ?_, ?_, ?_⟩
  · intro opts sesx d1 d2
    exact run_congr_afterScan _ _ _ (fun st => afterScan_m3u_delta opts d1 d2 sesx st)
  · intro opts sesx
    exact run_congr_afterScan _ _ _
      (fun st => afterScan_delta_parse_eq opts (some "0") none (by decide) sesx st)
  · intro pl source d
    exact makeCue_shift pl source d
  · decide

/-- Claim C6: if the scan completes and leaves the sample rate falsy
(zero, absent, or `NaN` from a non-numeric attribute), the run stops
with the "could not detect sample rate" failure — no playlist is built
and no output is produced; conversely, with a positive detected sample
rate this error branch is never taken. -/
theorem missing_sample_rate_fatal (opts : Options) (sesx : List String) (st : ScanState)
    (hsig : sigCheck sesx = Except.ok ()) (hscan : scan sesx = Except.ok st) :
    (jsFalsy st.sampleRate = true → run opts sesx = Except.error RunError.noSampleRate) ∧
    (∀ q : ℚ, st.sampleRate = some q → 0 < q →
      run opts sesx ≠ Except.error RunError.noSampleRate) := by
  have hrun : run opts sesx = afterScan opts sesx st := by
    unfold run
    rw [hsig, hscan]
  constructor
  · intro hf
    rw [hrun]
    unfold afterScan
    rw [hf]
    rfl
  · intro q hq hpos
    rw [hrun]
    unfold afterScan
    have hf : jsFalsy st.sampleRate = false := by
      rw [hq]
      simp [jsFalsy, hpos.ne']
    rw [hf]
    cases hinfo : opts.info with
    | true => simp
    | false =>
      simp only [Bool.false_eq_true, if_false]
      cases hr : renderPhase opts.format
          (sortJS (build sesx st.tracks st.files (st.sampleRate.getD 0)
            (parseTrackList opts.track)).1) opts.source (parseDelta opts.delta) with
      | error e => simp
      | ok data => simp

/-- Witness for claim C6 at a concrete input: a signature-valid file
with no `<session ` line leaves the sample rate at its initial `0`, and
the run reports the missing sample rate. -/
theorem missing_sample_rate_fatal_witness :
    run opts0 ["<?xml version=\x221.0\x22?>", "<!DOCTYPE sesx>"] =
      Except.error RunError.noSampleRate :=
  (missing_sample_rate_fatal opts0 ["<?xml version=\x221.0\x22?>", "<!DOCTYPE sesx>"]
    { tracks := [], files := [], sampleRate := some 0, nameSeen := false }
    (by decide) (by decide)).1 (by decide)

/-! ### Sorting lemmas (claim C8) -/

/-- Insertion keeps the multiset: `oins x l` is `x :: l` up to
permutation. -/
lemma oins_perm (x : Entry) (l : List Entry) : List.Perm (oins x l) (x :: l) := by
  induction l with
  | nil => exact List.Perm.refl _
  | cons b t ih =>
    unfold oins
    by_cases h : jsLe x b = true
    · rw [if_pos h]
    · rw [if_neg h]
      exact List.Perm.trans (ih.cons b) (List.Perm.swap x b t)

/-- The sort keeps the multiset. -/
lemma sortJS_perm (l : List Entry) : List.Perm (sortJS l) l := by
  induction l with
  | nil => exact List.Perm.refl _
  | cons a t ih => exact (oins_perm a (sortJS t)).trans (ih.cons a)

/-- On entries with numeric start points the comparator decides the key
order. -/
lemma jsLe_iff (a b : Entry) (x y : ℚ) (ha : a.startPoint = some x)
    (hb : b.startPoint = some y) :
    jsLe a b = true ↔ x ≤ y := by
  simp [jsLe, ha, hb]

/-- Inserting a numeric entry into a sorted numeric list keeps it
sorted. -/
lemma oins_sorted (x : Entry) (l : List Entry)
    (hx : x.startPoint.isSome = true) (hl : ∀ e ∈ l, e.startPoint.isSome = true)
    (hs : l.Pairwise (fun a b => a.startPoint.getD 0 ≤ b.startPoint.getD 0)) :
    (oins x l).Pairwise (fun a b => a.startPoint.getD 0 ≤ b.startPoint.getD 0) := by
  obtain ⟨kx, hkx⟩ := Option.isSome_iff_exists.mp hx
  induction l with
  | nil => simp [oins]
  | cons b t ih =>
    have hb := hl b (List.mem_cons_self b t)
    obtain ⟨kb, hkb⟩ := Option.isSome_iff_exists.mp hb
    have ht : ∀ e ∈ t, e.startPoint.isSome = true :=
      fun e he => hl e (List.mem_cons_of_mem b he)
    obtain ⟨hbt, hst⟩ := List.pairwise_cons.mp hs
    unfold oins
    by_cases h : jsLe x b = true
    · rw [if_pos h]
      have hxb : x.startPoint.getD 0 ≤ b.startPoint.getD 0 := by
        rw [hkx, hkb]
        simpa using (jsLe_iff x b kx kb hkx hkb).mp h
      refine List.Pairwise.cons ?_ hs
      intro e he
      rcases List.mem_cons.mp he with rfl | he'
      · exact hxb
      · exact le_trans hxb (hbt e he')
    · rw [if_neg h]
      have hbx : b.startPoint.getD 0 ≤ x.startPoint.getD 0 := by
        rw [hkx, hkb]
        have hnot : ¬ kx ≤ kb := fun hle => h ((jsLe_iff x b kx kb hkx hkb).mpr hle)
        simpa using le_of_lt (lt_of_not_le hnot)
      refine List.Pairwise.cons ?_ (ih ht hst)
      intro e he
      have hmem : e ∈ x :: t := (oins_perm x t).mem_iff.mp he
      rcases List.mem_cons.mp hmem with rfl | he'
      · exact hbx
      · exact hbt e he'

/-- The sorted playlist is non-decreasing in `startPoint` when all start
points are numeric. -/
lemma sortJS_sorted (l : List Entry) (hl : ∀ e ∈ l, e.startPoint.isSome = true) :
    (sortJS l).Pairwise (fun a b => a.startPoint.getD 0 ≤ b.startPoint.getD 0) := by
  induction l with
  | nil => simp [sortJS]
  | cons a t ih =>
    have ha := hl a (List.mem_cons_self a t)
    have ht : ∀ e ∈ t, e.startPoint.isSome = true :=
      fun e he => hl e (List.mem_cons_of_mem a he)
    have hmem : ∀ e ∈ sortJS t, e.startPoint.isSome = true :=
      fun e he => ht e ((sortJS_perm t).mem_iff.mp he)
    exact oins_sorted a (sortJS t) ha hmem (ih ht)

/-- Inserting an entry that fails the filter does not change the
filtered list. -/
lemma oins_filter_neg (x : Entry) (l : List Entry) (p : Entry → Bool) (hx : p x = false) :
    (oins x l).filter p = l.filter p := by
  induction l with
  | nil => simp [oins, hx]
  | cons b t ih =>
    unfold oins
    by_cases h : jsLe x b = true
    · rw [if_pos h]
      simp [List.filter_cons, hx]
    · rw [if_neg h]
      simp [List.filter_cons, ih]

/-- Inserting an entry with key `c` into a sorted numeric list puts it
in front of all other key-`c` entries: on the key-`c` filter the
insertion is a `cons`. -/
lemma oins_filter_pos (x : Entry) (l : List Entry) (c : ℚ)
    (hx : x.startPoint = some c) (hl : ∀ e ∈ l, e.startPoint.isSome = true)
    (hs : l.Pairwise (fun a b => a.startPoint.getD 0 ≤ b.startPoint.getD 0)) :
    (oins x l).filter (fun e => decide (e.startPoint = some c)) =
      x :: l.filter (fun e => decide (e.startPoint = some c)) := by
  induction l with
  | nil => simp [oins, hx]
  | cons b t ih =>
    have hb := hl b (List.mem_cons_self b t)
    obtain ⟨kb, hkb⟩ := Option.isSome_iff_exists.mp hb
    have ht : ∀ e ∈ t, e.startPoint.isSome = true :=
      fun e he => hl e (List.mem_cons_of_mem b he)
    obtain ⟨hbt, hst⟩ := List.pairwise_cons.mp hs
    unfold oins
    by_cases h : jsLe x b = true
    · rw [if_pos h]
      simp [List.filter_cons, hx]
    · rw [if_neg h]
      have hlt : kb < c := by
        have hnot : ¬ c ≤ kb := fun hle => h ((jsLe_iff x b c kb hx hkb).mpr hle)
        exact lt_of_not_le hnot
      have hbne : b.startPoint ≠ some c := by
        rw [hkb]
        intro hcontra
        exact absurd (Option.some_injective _ hcontra) hlt.ne
      simp [List.filter_cons, hbne, ih ht hst]

/-- The sort is stable: filtering any fixed start point commutes with
sorting, i.e. equal-key entries keep their original relative order. -/
lemma sortJS_filter (l : List Entry) (c : ℚ)
    (hl : ∀ e ∈ l, e.startPoint.isSome = true) :
    (sortJS l).filter (fun e => decide (e.startPoint = some c)) =
      l.filter (fun e => decide (e.startPoint = some c)) := by
  induction l with
  | nil => rfl
  | cons a t ih =>
    have ha := hl a (List.mem_cons_self a t)
    have ht : ∀ e ∈ t, e.startPoint.isSome = true :=
      fun e he => hl e (List.mem_cons_of_mem a he)
    have hmem : ∀ e ∈ sortJS t, e.startPoint.isSome = true :=
      fun e he => ht e ((sortJS_perm t).mem_iff.mp he)
    have hsorted := sortJS_sorted t ht
    show (oins a (sortJS t)).filter _ = _
    by_cases hx : a.startPoint = some c
    · rw [oins_filter_pos a (sortJS t) c hx hmem hsorted, ih ht]
      simp [List.filter_cons, hx]
    · rw [oins_filter_neg a (sortJS t) _ (by simp [hx]), ih ht]
      simp [List.filter_cons, hx]

/-- Claim C8: when every built entry has a numeric start point, the
sorted playlist is non-decreasing in `startPoint`, entries with equal
`startPoint` keep their original insertion order (track order, then clip
order: the filter on any fixed key is unchanged by the sort), and the
sort is a permutation of its input. -/
theorem playlist_sort_sorted_stable (pl : List Entry)
    (h : ∀ e ∈ pl, e.startPoint.isSome = true) :
    (sortJS pl).Pairwise (fun a b => a.startPoint.getD 0 ≤ b.startPoint.getD 0) ∧
    (∀ c : ℚ, (sortJS pl).filter (fun e => decide (e.startPoint = some c)) =
      pl.filter (fun e => decide (e.startPoint = some c))) ∧
    List.Perm (sortJS pl) pl :=
  ⟨sortJS_sorted pl h, fun c => sortJS_filter pl c h, sortJS_perm pl⟩

/-- A concrete three-entry playlist with a tie on start point 2. -/
def pl8 : List Entry :=
  [{ startPoint := some 2, duration := some 0, path := none, name := "a" },
   { startPoint := some 1, duration := some 0, path := none, name := "b" },
   { startPoint := some 2, duration := some 0, path := none, name := "c" }]

/-- Witness for claim C8 at a concrete input, with the stability filter
instantiated at the tied key 2. -/
theorem playlist_sort_sorted_stable_witness :
    (sortJS pl8).Pairwise (fun a b => a.startPoint.getD 0 ≤ b.startPoint.getD 0) ∧
    (sortJS pl8).filter (fun e => decide (e.startPoint = some 2)) =
      pl8.filter (fun e => decide (e.startPoint = some 2)) ∧
    List.Perm (sortJS pl8) pl8 := by
  have h := playlist_sort_sorted_stable pl8 (by decide)
  exact ⟨h.1, h.2.1 2, h.2.2⟩

/-! ### Timestamp arithmetic (claim C4) -/

/-- `x | 0` on a non-negative number below `2^31` is the floor. -/
lemma toInt32_some_nonneg (q : ℚ) (h0 : 0 ≤ q) (h1 : ⌊q⌋ < 2147483648) :
    toInt32 (some q) = ⌊q⌋ := by
  have hq : ratTrunc q = ⌊q⌋ := if_pos h0
  have hf0 : 0 ≤ ⌊q⌋ := Int.floor_nonneg.mpr h0
  have hm : ⌊q⌋ % 4294967296 = ⌊q⌋ := Int.emod_eq_of_lt hf0 (by omega)
  simp only [toInt32, hq, hm]
  rw [if_pos h1]

/-- Integers cast from naturals print like the naturals. -/
lemma intCast_toString (m : ℕ) : toString ((m : ℤ)) = toString m := rfl

/-- `toCueTS` on a numeric non-negative total below `2^31` seconds
produces the floor-based minute/second pair. -/
lemma toCueTS_nonneg (T : ℚ) (h0 : 0 ≤ T) (h1 : T < 2147483648) :
    toCueTS (some T) =
      padStart (toString ((⌊T⌋).toNat / 60)) 2 '0' ++ ":" ++
      padStart (toString ((⌊T⌋).toNat % 60)) 2 '0' ++ ":00" := by
  have h60 : (0:ℚ) < 60 := by norm_num
  have hdiv : jsDiv (some T) (some 60) = some (T / 60) := by
    simp [jsDiv]
  have hdivNonneg : 0 ≤ T / 60 := div_nonneg h0 h60.le
  have hTlt : ⌊T⌋ < 2147483648 := by
    rw [Int.floor_lt]
    exact_mod_cast h1
  have hfT0 : 0 ≤ ⌊T⌋ := Int.floor_nonneg.mpr h0
  have hdivle : T / 60 ≤ T := div_le_self h0 (by norm_num)
  have hfdlt : ⌊T / 60⌋ < 2147483648 := lt_of_le_of_lt (Int.floor_mono hdivle) hTlt
  have hmin : toInt32 (some (T / 60)) = ⌊T / 60⌋ :=
    toInt32_some_nonneg _ hdivNonneg hfdlt
  have hminval : ⌊T / 60⌋ = (((⌊T⌋).toNat / 60 : ℕ) : ℤ) := by
    have e1 : ⌊T / 60⌋ = ((⌊T / 60⌋).toNat : ℤ) :=
      (Int.toNat_of_nonneg (Int.floor_nonneg.mpr hdivNonneg)).symm
    rw [e1]
    congr 1
    rw [Int.floor_toNat, Int.floor_toNat]
    have hnf := Nat.floor_div_nat T 60
    simpa using hnf
  have hratdiv : ratTrunc (T / 60) = ⌊T / 60⌋ := if_pos hdivNonneg
  have hmod : jsMod (some T) (some 60) = some (T - 60 * ((⌊T / 60⌋ : ℤ) : ℚ)) := by
    simp [jsMod, hratdiv]
  have hkle : ((⌊T / 60⌋ : ℤ) : ℚ) ≤ T / 60 := Int.floor_le _
  have hvNonneg : 0 ≤ T - 60 * ((⌊T / 60⌋ : ℤ) : ℚ) := by
    have h2 : (60:ℚ) * ((⌊T / 60⌋ : ℤ) : ℚ) ≤ 60 * (T / 60) :=
      mul_le_mul_of_nonneg_left hkle (by norm_num)
    have h3 : (60:ℚ) * (T / 60) = T := by field_simp
    linarith
  have hfloorv : ⌊T - 60 * ((⌊T / 60⌋ : ℤ) : ℚ)⌋ = (((⌊T⌋).toNat % 60 : ℕ) : ℤ) := by
    have hcast : (60 : ℚ) * ((⌊T / 60⌋ : ℤ) : ℚ) = (((60 * ⌊T / 60⌋ : ℤ)) : ℚ) := by
      push_cast
      ring
    rw [hcast, Int.floor_sub_int, hminval]
    omega
  have hvlt : ⌊T - 60 * ((⌊T / 60⌋ : ℤ) : ℚ)⌋ < 2147483648 := by
    rw [hfloorv]
    have hm60 : (⌊T⌋).toNat % 60 < 60 := Nat.mod_lt _ (by norm_num)
    omega
  have hsec : toInt32 (some (T - 60 * ((⌊T / 60⌋ : ℤ) : ℚ))) =
      (((⌊T⌋).toNat % 60 : ℕ) : ℤ) := by
    rw [toInt32_some_nonneg _ hvNonneg hvlt, hfloorv]
  show padStart (toString (toInt32 (jsDiv (some T) (some 60)))) 2 '0' ++ ":" ++
      padStart (toString (toInt32 (jsMod (some T) (some 60)))) 2 '0' ++ ":00" = _
  rw [hdiv, hmod, hmin, hsec, hminval, intCast_toString, intCast_toString]

unseal Rat.add Rat.mul Rat.inv Rat.sub in
/-- Claim C4 (counterexample): for an entry with `startPoint = 59.5`
seconds and caller delta `0.9` seconds, the code first truncates the
delta with `|0` (giving `0`) and then truncates minutes and seconds
toward zero, producing `00:59:00`; the claim's formula
`floor((startPoint+delta)/60) : floor((startPoint+delta) % 60)` computed
on the untruncated sum `60.4` predicts `01:00:00` instead — the claim as
stated is false. -/
theorem cue_timestamp_floor_counterexample :
    toCueTS (jsAdd (some ((119 : ℚ)/2)) (some ((toInt32 (some ((9 : ℚ)/10)) : ℤ) : ℚ))) =
      "00:59:00" ∧
    padStart (toString ⌊((119 : ℚ)/2 + (9 : ℚ)/10) / 60⌋) 2 '0' ++ ":" ++
      padStart (toString ⌊(119 : ℚ)/2 + (9 : ℚ)/10 -
        60 * ((⌊((119 : ℚ)/2 + (9 : ℚ)/10) / 60⌋ : ℤ) : ℚ)⌋) 2 '0' ++ ":00" =
      "01:00:00" := by
  refine ⟨by decide, by decide⟩

/-- Claim C4 (amended): the caller's delta is first truncated toward
zero to a 32-bit integer by `options.delta|0`; writing `T` for
`startPoint + truncatedDelta`, whenever `T` is numeric, non-negative and
below `2^31`, the CUE INDEX timestamp is `MM:SS:00` with minutes
`⌊T⌋ / 60` and seconds `⌊T⌋ % 60`, each zero-padded to two digits and
the frames field fixed at `00` (for such `T` the code's
truncation-toward-zero agrees with the floor; for fractional deltas, or
negative or huge totals, the claim's original floor formula does not
describe the code). -/
theorem cue_timestamp_truncation (p : ℚ) (d : JSNum)
    (h0 : 0 ≤ p + ((toInt32 d : ℤ) : ℚ))
    (h1 : p + ((toInt32 d : ℤ) : ℚ) < 2147483648) :
    toCueTS (jsAdd (some p) (some ((toInt32 d : ℤ) : ℚ))) =
      padStart (toString ((⌊p + ((toInt32 d : ℤ) : ℚ)⌋).toNat / 60)) 2 '0' ++ ":" ++
      padStart (toString ((⌊p + ((toInt32 d : ℤ) : ℚ)⌋).toNat % 60)) 2 '0' ++ ":00" :=
  toCueTS_nonneg (p + ((toInt32 d : ℤ) : ℚ)) h0 h1

unseal Rat.add Rat.mul Rat.inv Rat.sub in
/-- Witness for the amended claim C4: entry start `130.25` seconds with
caller delta `-9.5` (truncated by `|0` to `-9`): total `121.25`, CUE
timestamp `02:01:00`. -/
theorem cue_timestamp_truncation_witness :
    toCueTS (jsAdd (some ((521 : ℚ)/4)) (some ((toInt32 (some (-(19 : ℚ)/2)) : ℤ) : ℚ))) =
      padStart (toString ((⌊(521 : ℚ)/4 + ((toInt32 (some (-(19 : ℚ)/2)) : ℤ) : ℚ)⌋).toNat / 60))
        2 '0' ++ ":" ++
      padStart (toString ((⌊(521 : ℚ)/4 + ((toInt32 (some (-(19 : ℚ)/2)) : ℤ) : ℚ)⌋).toNat % 60))
        2 '0' ++ ":00" :=
  cue_timestamp_truncation ((521 : ℚ)/4) (some (-(19 : ℚ)/2)) (by decide) (by decide)

end Sesx
